import Mathlib

/-!
# Verification of the Tauri log plugin JS bindings

Shallow embedding of `src/dist-js/index.cjs`: the `LogLevel` numeric enum,
the `log` request builder (stack-trace location derivation and outbound
`invoke` payload), the five level convenience functions, and the
`attachConsole` event handler (ANSI-escape stripping and console routing).

JS strings are modelled as Lean `String` / `List Char`; `undefined` as
`Option.none`; a `Record<string,string>` object as an association list;
the single `invoke` transport call as a function parameter returning
`Except`.
-/

namespace PluginLog

/-- The `LogLevel` TypeScript numeric enum from `index.cjs`. -/
inductive LogLevel where
  | Trace
  | Debug
  | Info
  | Warn
  | Error
deriving DecidableEq, Repr

/-- The numeric wire value of each enum member
(`LogLevel["Trace"] = 1`, ..., `LogLevel["Error"] = 5`). -/
def LogLevel.toNat : LogLevel → Nat
  | .Trace => 1
  | .Debug => 2
  | .Info => 3
  | .Warn => 4
  | .Error => 5

/-- The optional `options` argument of `log` (`LogOptions`):
`file`, `line`, `keyValues`, each independently absent (`undefined`). -/
structure LogOptions where
  file : Option String := none
  line : Option Nat := none
  keyValues : Option (List (String × String)) := none
deriving DecidableEq, Repr

/-- The payload object passed to `invoke("plugin:log|log", {...})`. -/
structure LogRecord where
  level : Nat
  message : String
  location : Option String
  file : Option String
  line : Option Nat
  keyValues : Option (List (String × String))
deriving DecidableEq, Repr

/-- JS `String.prototype.split` with a one-character separator, over
the character list: splitting the empty string gives `[[]]`, a
separator occurrence always opens a new (possibly empty) segment. -/
def jsSplitChar (sep : Char) : List Char → List (List Char)
  | [] => [[]]
  | c :: rest =>
    if c = sep then
      [] :: jsSplitChar sep rest
    else
      match jsSplitChar sep rest with
      | [] => [[c]]
      | h :: t => (c :: h) :: t

/-- JS `s.split(sep)` for a one-character separator, as strings. -/
def jsSplit (sep : Char) (s : String) : List String :=
  (jsSplitChar sep s.data).map (fun cs => ⟨cs⟩)

/-- The filter callback of `traces?.filter(([name, location]) => ...)`:
JS destructuring gives `name = parts[0]` (a split result is never empty,
so `headD ""` is only a guard) and `location = parts[1]` (possibly
`undefined`); the frame is kept when
`name.length > 0 && location !== "[native code]"`. -/
def keepFrame (parts : List String) : Bool :=
  (parts.headD "").length > 0 && parts[1]? != some "[native code]"

/-- Lines 43-51 of `index.cjs`, with the captured `new Error().stack`
(possibly `undefined`) as input:
`stack?.split("\n").map(line => line.split("@"))`, filter with
`keepFrame`, then `filtered?.[0]?.filter(v => v.length > 0).join("@")`,
and finally `if (location === "Error") location = "webview::unknown"`. -/
def deriveLocation (stack : Option String) : Option String :=
  let traces := stack.map (fun s => (jsSplit '\n' s).map (fun line => jsSplit '@' line))
  let filtered := traces.map (List.filter keepFrame)
  let location := (filtered.bind List.head?).map
    (fun frame => "@".intercalate (frame.filter (fun v => v.length > 0)))
  if location = some "Error" then some "webview::unknown" else location

/-- The record `log` builds: `level` and `message` as passed, `location`
derived from the captured stack, and `file`/`line`/`keyValues`
destructured from `options ?? {}`. -/
def logRecord (level : LogLevel) (message : String) (options : Option LogOptions)
    (stack : Option String) : LogRecord :=
  let opts := options.getD {}
  { level := level.toNat
    message := message
    location := deriveLocation stack
    file := opts.file
    line := opts.line
    keyValues := opts.keyValues }

/-- One outbound transport request: the command name and its payload. -/
structure Invocation where
  cmd : String
  payload : LogRecord
deriving DecidableEq, Repr

/-- The function `log` seen as the list of outbound requests it
performs: exactly one `invoke("plugin:log|log", record)`. -/
def log (level : LogLevel) (message : String) (options : Option LogOptions)
    (stack : Option String) : List Invocation :=
  [{ cmd := "plugin:log|log", payload := logRecord level message options stack }]

/-- The function `log` seen against an explicit transport: `await invoke(...)` either
resolves (`Except.ok`) or rejects (`Except.error`), and `log` returns
exactly that outcome. -/
def logRun (invoke : String → LogRecord → Except String Unit) (level : LogLevel)
    (message : String) (options : Option LogOptions) (stack : Option String) :
    Except String Unit :=
  invoke "plugin:log|log" (logRecord level message options stack)

/-- Source: `async function trace(message, options) { await log(LogLevel.Trace, message, options); }` -/
def trace (message : String) (options : Option LogOptions) (stack : Option String) :
    List Invocation :=
  log LogLevel.Trace message options stack

/-- Source: `async function debug(message, options) { await log(LogLevel.Debug, message, options); }` -/
def debug (message : String) (options : Option LogOptions) (stack : Option String) :
    List Invocation :=
  log LogLevel.Debug message options stack

/-- Source: `async function info(message, options) { await log(LogLevel.Info, message, options); }` -/
def info (message : String) (options : Option LogOptions) (stack : Option String) :
    List Invocation :=
  log LogLevel.Info message options stack

/-- Source: `async function warn(message, options) { await log(LogLevel.Warn, message, options); }` -/
def warn (message : String) (options : Option LogOptions) (stack : Option String) :
    List Invocation :=
  log LogLevel.Warn message options stack

/-- Source: `async function error(message, options) { await log(LogLevel.Error, message, options); }` -/
def error (message : String) (options : Option LogOptions) (stack : Option String) :
    List Invocation :=
  log LogLevel.Error message options stack

/-! ## The ANSI-stripping regex of `attachConsole`

`/[\u001b\u009b][[()#;?]*(?:[0-9]{1,4}(?:;[0-9]{0,4})*)?[0-9A-ORZcf-nqry=><]/g`

modelled as a backtracking matcher over `List Char`: each quantified
piece enumerates its possible remainders in the JS (greedy, leftmost)
preference order, and the first remainder from which the rest of the
pattern succeeds wins. -/

/-- The introducer class `[\u001b\u009b]`: ESC or the one-byte CSI. -/
def isIntroducer (c : Char) : Bool :=
  c == '\u001b' || c == '\u009b'

/-- The intermediate class `[[()#;?]`. -/
def isIntermediate (c : Char) : Bool :=
  c == '[' || c == '(' || c == ')' || c == '#' || c == ';' || c == '?'

/-- The digit class `[0-9]`. -/
def isDigitCh (c : Char) : Bool :=
  '0' ≤ c && c ≤ '9'

/-- The final-byte class `[0-9A-ORZcf-nqry=><]`. -/
def isFinalByte (c : Char) : Bool :=
  ('0' ≤ c && c ≤ '9') || ('A' ≤ c && c ≤ 'O') || c == 'R' || c == 'Z' || c == 'c' ||
    ('f' ≤ c && c ≤ 'n') || c == 'q' || c == 'r' || c == 'y' ||
    c == '=' || c == '>' || c == '<'

/-- Remainders after `[[()#;?]*`, greedy: longest consumption first. -/
def interCandidates (cs : List Char) : List (List Char) :=
  (List.range ((cs.takeWhile isIntermediate).length + 1)).reverse.map (fun k => cs.drop k)

/-- Remainders after `[0-9]{lo,hi}`, greedy: consume between `lo` and
`hi` leading digits, longest first. -/
def digitCandidates (lo hi : Nat) (cs : List Char) : List (List Char) :=
  let m := min (cs.takeWhile isDigitCh).length hi
  (((List.range (m + 1)).reverse).filter (fun k => lo ≤ k)).map (fun k => cs.drop k)

/-- Remainders after one `(?:;[0-9]{0,4})` group. -/
def semiGroup (cs : List Char) : List (List Char) :=
  match cs with
  | c :: rest => if c == ';' then digitCandidates 0 4 rest else []
  | [] => []

/-- Remainders after `(?:;[0-9]{0,4})*`, greedy: try a further iteration
before stopping. Each iteration consumes at least the `;`, so fuel equal
to the list length is exhaustive. -/
def starSemi : Nat → List Char → List (List Char)
  | 0, cs => [cs]
  | fuel + 1, cs => ((semiGroup cs).flatMap (starSemi fuel)) ++ [cs]

/-- Match the final byte `[0-9A-ORZcf-nqry=><]` and return the remainder. -/
def finalByteStep (cs : List Char) : Option (List Char) :=
  match cs with
  | c :: rest => if isFinalByte c then some rest else none
  | [] => none

/-- Match the whole regex at the head of `cs`; `some rem` leaves the
text after the match. Candidate remainders are tried in the JS greedy
backtracking order. -/
def matchEscape (cs : List Char) : Option (List Char) :=
  match cs with
  | [] => none
  | c :: rest =>
    if isIntroducer c then
      (interCandidates rest).findSome? (fun afterInter =>
        ((digitCandidates 1 4 afterInter).flatMap (fun r => starSemi r.length r)
            ++ [afterInter]).findSome? finalByteStep)
    else none

/-- Source: `message.replace(regex, "")`: scan left to right, drop each leftmost
match, keep every other character. A match always consumes at least the
introducer, so fuel equal to the length is exhaustive. -/
def stripAnsiList : Nat → List Char → List Char
  | 0, cs => cs
  | _ + 1, [] => []
  | fuel + 1, c :: rest =>
    match matchEscape (c :: rest) with
    | some remainder => stripAnsiList fuel remainder
    | none => c :: stripAnsiList fuel rest

/-- The ANSI-escape stripping applied to `payload.message` in
`attachConsole`. -/
def stripAnsi (s : String) : String :=
  ⟨stripAnsiList s.data.length s.data⟩

/-! ## The `attachConsole` event handler -/

/-- The inbound `"log://log"` event payload: `{ level, message }` with
the level as its numeric wire value. -/
structure LogEventPayload where
  level : Nat
  message : String
deriving DecidableEq, Repr

/-- The five console channels the handler can print to. -/
inductive ConsoleChannel where
  | log
  | debug
  | info
  | warn
  | error
deriving DecidableEq, Repr

/-- The handler body of `attachConsole`: strip ANSI escapes from the
message, then `switch (payload.level)` over the five enum values; the
`default` branch throws `unknown log level ${payload.level}`. -/
def handleLogEvent (payload : LogEventPayload) : Except String (ConsoleChannel × String) :=
  let message := stripAnsi payload.message
  if payload.level = LogLevel.Trace.toNat then .ok (.log, message)
  else if payload.level = LogLevel.Debug.toNat then .ok (.debug, message)
  else if payload.level = LogLevel.Info.toNat then .ok (.info, message)
  else if payload.level = LogLevel.Warn.toNat then .ok (.warn, message)
  else if payload.level = LogLevel.Error.toNat then .ok (.error, message)
  else .error ("unknown log level " ++ toString payload.level)

/-- State of an installed console attachment: whether the subscription
is live, the console lines printed so far, and the handler errors
raised so far. -/
structure ConsoleState where
  attached : Bool
  output : List (ConsoleChannel × String)
  errors : List String
deriving DecidableEq, Repr

/-- Modelled from the spec: the event subscription obtained from the
external `event.listen` API (not part of this repository) delivers each
`"log://log"` event to the handler while the subscription is live; an
error thrown by the handler is scoped to that one event and does not
tear the subscription down. -/
def deliverEvent (st : ConsoleState) (ev : LogEventPayload) : ConsoleState :=
  if st.attached then
    match handleLogEvent ev with
    | .ok out => { st with output := st.output ++ [out] }
    | .error e => { st with errors := st.errors ++ [e] }
  else st

/-- Deliver a sequence of inbound events in order. -/
def deliverEvents (st : ConsoleState) (evs : List LogEventPayload) : ConsoleState :=
  evs.foldl deliverEvent st

/-- The console lines a list of events produces on its own: one per
successfully handled event. -/
def outputsOf (evs : List LogEventPayload) : List (ConsoleChannel × String) :=
  evs.filterMap (fun ev => (handleLogEvent ev).toOption)

/-! ## Helper lemmas -/

theorem string_ne_empty_iff_length_pos (v : String) : v ≠ "" ↔ 0 < v.length := by
  rw [ne_eq, String.ext_iff]
  show ¬ v.data = ([] : List Char) ↔ 0 < v.data.length
  constructor
  · intro hne
    exact List.length_pos.mpr hne
  · intro hp he
    simp [he] at hp

/-! ## Claims -/

/-- C7: the `LogLevel` enumeration has exactly the five members
Trace, Debug, Info, Warn, Error, with wire values 1, 2, 3, 4, 5,
distinct values distinguish distinct members, and `log` places exactly
the wire value of the level in the single outbound request. -/
theorem loglevel_wire_contract :
    (∀ l : LogLevel,
      l = .Trace ∨ l = .Debug ∨ l = .Info ∨ l = .Warn ∨ l = .Error) ∧
    LogLevel.Trace.toNat = 1 ∧ LogLevel.Debug.toNat = 2 ∧ LogLevel.Info.toNat = 3 ∧
    LogLevel.Warn.toNat = 4 ∧ LogLevel.Error.toNat = 5 ∧
    (∀ l₁ l₂ : LogLevel, l₁.toNat = l₂.toNat ↔ l₁ = l₂) ∧
    (∀ (l : LogLevel) (m : String) (o : Option LogOptions) (s : Option String),
      (log l m o s).map (fun inv => inv.payload.level) = [l.toNat]) := by
  refine ⟨fun l => ?_, rfl, rfl, rfl, rfl, rfl, fun l₁ l₂ => ?_, fun l m o s => rfl⟩
  · cases l <;> simp
  · cases l₁ <;> cases l₂ <;> simp [LogLevel.toNat]

/-- C2: with no options, the level functions produce exactly one
outbound request carrying the given level and message with `file`,
`line`, `keyValues` all absent; with options, the request carries
exactly the supplied `file`, `line`, `keyValues`, each omitted field
staying absent. -/
theorem log_request_fields (l : LogLevel) (m : String) (s : Option String) :
    log l m none s =
      [{ cmd := "plugin:log|log"
         payload := { level := l.toNat, message := m, location := deriveLocation s,
                      file := none, line := none, keyValues := none } }] ∧
    ∀ o : LogOptions,
      log l m (some o) s =
        [{ cmd := "plugin:log|log"
           payload := { level := l.toNat, message := m, location := deriveLocation s,
                        file := o.file, line := o.line, keyValues := o.keyValues } }] :=
  ⟨rfl, fun _ => rfl⟩

/-- C9: each of the five exported level functions equals the generic
`log` with its level fixed, for every message, options and captured
stack. -/
theorem level_functions_fix_level (m : String) (o : Option LogOptions)
    (s : Option String) :
    trace m o s = log LogLevel.Trace m o s ∧
    debug m o s = log LogLevel.Debug m o s ∧
    info m o s = log LogLevel.Info m o s ∧
    warn m o s = log LogLevel.Warn m o s ∧
    error m o s = log LogLevel.Error m o s :=
  ⟨rfl, rfl, rfl, rfl, rfl⟩

/-- C10: the outbound request forwards the caller-supplied message and
option fields exactly as given — the `keyValues` association is the
very value supplied, every key-value pair unchanged — and, the
embedding being a pure function of its arguments, the call leaves the
supplied message and options untouched. -/
theorem log_forwards_caller_values (l : LogLevel) (m : String) (o : LogOptions)
    (s : Option String) :
    (logRecord l m (some o) s).message = m ∧
    (logRecord l m (some o) s).file = o.file ∧
    (logRecord l m (some o) s).line = o.line ∧
    (logRecord l m (some o) s).keyValues = o.keyValues ∧
    (∀ kv, kv ∈ (logRecord l m (some o) s).keyValues.getD [] ↔
      kv ∈ o.keyValues.getD []) ∧
    log l m (some o) s =
      [{ cmd := "plugin:log|log", payload := logRecord l m (some o) s }] :=
  ⟨rfl, rfl, rfl, rfl, fun _ => Iff.rfl, rfl⟩

/-- C4: the handler of `attachConsole` routes an event with a known
level to exactly the matching console channel, with the sanitized
message: Trace to `console.log`, Debug to `console.debug`, Info to
`console.info`, Warn to `console.warn`, Error to `console.error`. -/
theorem console_routing_known_levels (m : String) :
    handleLogEvent { level := LogLevel.Trace.toNat, message := m } =
      .ok (.log, stripAnsi m) ∧
    handleLogEvent { level := LogLevel.Debug.toNat, message := m } =
      .ok (.debug, stripAnsi m) ∧
    handleLogEvent { level := LogLevel.Info.toNat, message := m } =
      .ok (.info, stripAnsi m) ∧
    handleLogEvent { level := LogLevel.Warn.toNat, message := m } =
      .ok (.warn, stripAnsi m) ∧
    handleLogEvent { level := LogLevel.Error.toNat, message := m } =
      .ok (.error, stripAnsi m) :=
  ⟨rfl, rfl, rfl, rfl, rfl⟩

/-- C8: `log` performs the one transport request and returns its
outcome, so it rejects exactly when `invoke` fails; the captured stack
influences nothing but the `location` field of the payload, so for a
transport insensitive to `location` the outcome is independent of
whether a usable location could be derived. -/
theorem log_rejects_iff_transport_fails
    (invoke : String → LogRecord → Except String Unit) (l : LogLevel) (m : String)
    (o : Option LogOptions) (s : Option String) :
    logRun invoke l m o s = invoke "plugin:log|log" (logRecord l m o s) ∧
    ((∃ e, logRun invoke l m o s = .error e) ↔
      (∃ e, invoke "plugin:log|log" (logRecord l m o s) = .error e)) ∧
    (∀ s2 : Option String,
      logRecord l m o s2 = { logRecord l m o s with location := deriveLocation s2 }) ∧
    (∀ s2 : Option String,
      (∀ (r : LogRecord) (loc : Option String),
          invoke "plugin:log|log" { r with location := loc } =
            invoke "plugin:log|log" r) →
      logRun invoke l m o s2 = logRun invoke l m o s) := by
  refine ⟨rfl, Iff.rfl, fun s2 => rfl, fun s2 h => ?_⟩
  show invoke "plugin:log|log" (logRecord l m o s2) =
    invoke "plugin:log|log" (logRecord l m o s)
  have h1 : logRecord l m o s2 =
      { logRecord l m o s with location := deriveLocation s2 } := rfl
  rw [h1]
  exact h (logRecord l m o s) (deriveLocation s2)

/-- C8 witness: with an always-succeeding location-insensitive
transport, a call with no stack available has the same outcome as one
with a stack. -/
theorem log_rejects_iff_transport_fails_witness :
    logRun (fun _ _ => Except.ok ()) LogLevel.Info "m" none none =
      logRun (fun _ _ => Except.ok ()) LogLevel.Info "m" none (some "stack") :=
  (log_rejects_iff_transport_fails (fun _ _ => Except.ok ()) LogLevel.Info "m" none
    (some "stack")).2.2.2 none (fun _ _ => rfl)

/-- C1 counterexample: on the stack `"@[native code]"` every frame is
filtered out, and the `location` of the request is then absent (`none`),
not the sentinel `"webview::unknown"`. -/
theorem no_usable_frame_counterexample :
    ((jsSplit '\n' "@[native code]").map
        (fun line => jsSplit '@' line)).filter keepFrame = [] ∧
    (logRecord LogLevel.Info "msg" none (some "@[native code]")).location = none ∧
    (logRecord LogLevel.Info "msg" none (some "@[native code]")).location ≠
      some "webview::unknown" := by
  refine ⟨by decide, by decide, by decide⟩

/-- C1 amended: when the captured stack is absent or every frame of it
is filtered out, the `location` field of the outbound request is
absent (`undefined`); the fallback sentinel is not substituted in that
case. -/
theorem location_absent_when_no_usable_frame (stack : Option String) (l : LogLevel)
    (m : String) (o : Option LogOptions)
    (h : ∀ s, stack = some s →
      ((jsSplit '\n' s).map (fun line => jsSplit '@' line)).filter keepFrame = []) :
    (logRecord l m o stack).location = none := by
  cases stack with
  | none => rfl
  | some s =>
    have hs := h s rfl
    show deriveLocation (some s) = none
    simp [deriveLocation, hs]

/-- C1 amended witness: at the concrete all-filtered stack
`"@[native code]"`, `location` is absent. -/
theorem location_absent_when_no_usable_frame_witness :
    (logRecord LogLevel.Info "m" none (some "@[native code]")).location = none :=
  location_absent_when_no_usable_frame (some "@[native code]") LogLevel.Info "m" none
    (by intro s hs; injection hs with h2; subst h2; decide)

theorem deliverEvent_attached (st : ConsoleState) (ev : LogEventPayload) :
    (deliverEvent st ev).attached = st.attached := by
  unfold deliverEvent
  split
  · cases handleLogEvent ev <;> rfl
  · rfl

theorem deliverEvent_output (st : ConsoleState) (ev : LogEventPayload)
    (h : st.attached = true) :
    (deliverEvent st ev).output = st.output ++ (handleLogEvent ev).toOption.toList := by
  unfold deliverEvent
  rw [if_pos h]
  cases hev : handleLogEvent ev <;> simp [Except.toOption]

theorem deliverEvents_output (evs : List LogEventPayload) :
    ∀ st : ConsoleState, st.attached = true →
      (deliverEvents st evs).attached = true ∧
      (deliverEvents st evs).output = st.output ++ outputsOf evs := by
  induction evs with
  | nil =>
    intro st h
    exact ⟨h, by simp [deliverEvents, outputsOf]⟩
  | cons ev evs ih =>
    intro st h
    have h1 : (deliverEvent st ev).attached = true := by
      rw [deliverEvent_attached]
      exact h
    have h2 := ih (deliverEvent st ev) h1
    have hfold : deliverEvents st (ev :: evs) = deliverEvents (deliverEvent st ev) evs := rfl
    refine ⟨hfold ▸ h2.1, ?_⟩
    rw [hfold, h2.2, deliverEvent_output st ev h, List.append_assoc]
    congr 1
    cases hev : handleLogEvent ev <;> simp [outputsOf, hev, Except.toOption]

/-- C5: an inbound event whose numeric level is none of the five known
values makes the handler fail with the `unknown log level` error,
prints to no console channel, leaves the subscription attached, and
leaves the handling of every subsequent event exactly as it would have
been without the malformed event. -/
theorem unknown_level_scoped_failure (lvl : Nat) (m : String) (st : ConsoleState)
    (evs : List LogEventPayload) (hl : ∀ l : LogLevel, lvl ≠ l.toNat)
    (hst : st.attached = true) :
    handleLogEvent { level := lvl, message := m } =
      .error ("unknown log level " ++ toString lvl) ∧
    (deliverEvent st { level := lvl, message := m }).output = st.output ∧
    (deliverEvent st { level := lvl, message := m }).attached = true ∧
    (deliverEvents (deliverEvent st { level := lvl, message := m }) evs).output =
      st.output ++ outputsOf evs ∧
    (deliverEvents (deliverEvent st { level := lvl, message := m }) evs).attached =
      true := by
  have h1 : handleLogEvent { level := lvl, message := m } =
      .error ("unknown log level " ++ toString lvl) := by
    simp [handleLogEvent, hl LogLevel.Trace, hl LogLevel.Debug, hl LogLevel.Info,
      hl LogLevel.Warn, hl LogLevel.Error]
  have h2 : deliverEvent st { level := lvl, message := m } =
      { st with errors := st.errors ++ ["unknown log level " ++ toString lvl] } := by
    simp [deliverEvent, hst, h1]
  have h3 := deliverEvents_output evs
    { st with errors := st.errors ++ ["unknown log level " ++ toString lvl] } hst
  exact ⟨h1, by rw [h2], by rw [h2]; exact hst, by rw [h2]; exact h3.2, by rw [h2]; exact h3.1⟩

/-- C5 witness: at level 99 the handler fails with
`unknown log level 99`, renders nothing, and a following Warn event is
handled exactly as usual. -/
theorem unknown_level_scoped_failure_witness :
    handleLogEvent { level := 99, message := "boom" } =
      .error ("unknown log level " ++ toString (99 : Nat)) ∧
    (deliverEvent { attached := true, output := [], errors := [] }
      { level := 99, message := "boom" }).output = [] ∧
    (deliverEvent { attached := true, output := [], errors := [] }
      { level := 99, message := "boom" }).attached = true ∧
    (deliverEvents (deliverEvent { attached := true, output := [], errors := [] }
        { level := 99, message := "boom" }) [{ level := 4, message := "w" }]).output =
      [] ++ outputsOf [{ level := 4, message := "w" }] ∧
    (deliverEvents (deliverEvent { attached := true, output := [], errors := [] }
        { level := 99, message := "boom" }) [{ level := 4, message := "w" }]).attached =
      true :=
  unknown_level_scoped_failure 99 "boom" { attached := true, output := [], errors := [] }
    [{ level := 4, message := "w" }] (by intro l; cases l <;> decide) rfl

/-- C3: a frame survives the filter exactly when its name part is
nonempty and its location part is not the `[native code]` marker; the
`location` string is the first surviving frame with empty segments
dropped and the rest joined with `@`, and the literal `Error` is
replaced by the fallback sentinel. -/
theorem location_derivation_characterization (stack : String) :
    (∀ parts, parts ∈ (jsSplit '\n' stack).map (fun line => jsSplit '@' line) →
      (parts ∈ ((jsSplit '\n' stack).map (fun line => jsSplit '@' line)).filter keepFrame ↔
        (parts.headD "" ≠ "" ∧ parts[1]? ≠ some "[native code]"))) ∧
    deriveLocation (some stack) =
      (((jsSplit '\n' stack).map (fun line => jsSplit '@' line)).filter
          keepFrame).head?.map
        (fun frame =>
          let joined := "@".intercalate (frame.filter (fun v => decide (v ≠ "")))
          if joined = "Error" then "webview::unknown" else joined) := by
  have hfun : (fun v : String => decide (v ≠ "")) = (fun v : String => decide (0 < v.length)) := by
    funext v
    rw [decide_eq_decide]
    exact string_ne_empty_iff_length_pos v
  constructor
  · intro parts hmem
    rw [List.mem_filter]
    simp only [hmem, true_and, keepFrame, Bool.and_eq_true, decide_eq_true_eq,
      bne_iff_ne, ne_eq, string_ne_empty_iff_length_pos]
  · rw [hfun]
    cases hh : (((jsSplit '\n' stack).map (fun line => jsSplit '@' line)).filter
        keepFrame).head? with
    | none => simp [deriveLocation, hh]
    | some frame =>
      simp only [deriveLocation, Option.map_some', Option.some_bind, hh, Option.some.injEq]
      split_ifs <;> rfl

/-- C3 witness: on the one-frame stack `log@app.js:1:2` the frame is
kept and the derived location is the joined frame text. -/
theorem location_derivation_characterization_witness :
    ["log", "app.js:1:2"] ∈
      ((jsSplit '\n' "log@app.js:1:2").map (fun line => jsSplit '@' line)).filter
        keepFrame ∧
    deriveLocation (some "log@app.js:1:2") = some "log@app.js:1:2" := by
  have h := location_derivation_characterization "log@app.js:1:2"
  refine ⟨(h.1 ["log", "app.js:1:2"] (by decide)).mpr (by decide), ?_⟩
  rw [h.2]
  decide

/-- A character list free of both escape introducers (ESC and the
one-byte CSI): no regex match can start anywhere in it. -/
def escFree (cs : List Char) : Bool :=
  cs.all (fun c => !(isIntroducer c))

theorem matchEscape_not_introducer (c : Char) (rest : List Char)
    (h : isIntroducer c = false) : matchEscape (c :: rest) = none := by
  simp [matchEscape, h]

theorem stripAnsiList_escFree (cs : List Char) :
    ∀ fuel : Nat, escFree cs = true → stripAnsiList fuel cs = cs := by
  induction cs with
  | nil =>
    intro fuel _
    cases fuel <;> rfl
  | cons c rest ih =>
    intro fuel h
    rw [escFree, List.all_cons, Bool.and_eq_true] at h
    have hc : isIntroducer c = false := by
      rw [← Bool.not_eq_true']
      exact h.1
    cases fuel with
    | zero => rfl
    | succ f =>
      simp [stripAnsiList, matchEscape_not_introducer c rest hc, ih f h.2]

theorem stripAnsiList_append_escFree (pre : List Char) :
    escFree pre = true → ∀ (fuel : Nat) (suffix : List Char),
      stripAnsiList fuel (pre ++ suffix) =
        pre ++ stripAnsiList (fuel - pre.length) suffix := by
  induction pre with
  | nil =>
    intro _ fuel suffix
    simp
  | cons a pre ih =>
    intro h fuel suffix
    rw [escFree, List.all_cons, Bool.and_eq_true] at h
    have ha : isIntroducer a = false := by
      rw [← Bool.not_eq_true']
      exact h.1
    cases fuel with
    | zero =>
      show a :: (pre ++ suffix) = a :: pre ++ stripAnsiList (0 - (pre.length + 1)) suffix
      rw [Nat.zero_sub]
      rfl
    | succ f =>
      show stripAnsiList (f + 1) (a :: (pre ++ suffix)) =
        a :: pre ++ stripAnsiList (f + 1 - (pre.length + 1)) suffix
      rw [Nat.succ_sub_succ]
      simp [stripAnsiList, matchEscape_not_introducer a _ ha, ih h.2 f suffix]

theorem matchEscape_sgr_reset (post : List Char) :
    matchEscape ('\u001b' :: '[' :: '0' :: 'm' :: post) = some post := by
  simp [matchEscape, isIntroducer, interCandidates, digitCandidates, starSemi, semiGroup,
    finalByteStep, isIntermediate, isDigitCh, isFinalByte, List.takeWhile, List.range_succ,
    List.findSome?]

/-- C6: the ANSI-stripping step is the identity on every message with
no escape introducer byte, and removes an embedded SGR reset sequence
`ESC [ 0 m` exactly, preserving the surrounding text character for
character. -/
theorem strip_ansi_sanitization :
    (∀ s : String, escFree s.data = true → stripAnsi s = s) ∧
    (∀ pre post : String, escFree pre.data = true → escFree post.data = true →
      stripAnsi (pre ++ "\u001b[0m" ++ post) = pre ++ post) := by
  constructor
  · intro s h
    show (⟨stripAnsiList s.data.length s.data⟩ : String) = s
    rw [stripAnsiList_escFree s.data _ h]
  · intro pre post hpre hpost
    have hdata : (pre ++ "\u001b[0m" ++ post).data =
        pre.data ++ ('\u001b' :: '[' :: '0' :: 'm' :: post.data) := by
      have hseq : ("\u001b[0m" : String).data = ['\u001b', '[', '0', 'm'] := rfl
      rw [String.data_append, String.data_append, List.append_assoc, hseq]
      rfl
    show (⟨stripAnsiList (pre ++ "\u001b[0m" ++ post).data.length
      (pre ++ "\u001b[0m" ++ post).data⟩ : String) = pre ++ post
    rw [hdata, stripAnsiList_append_escFree pre.data hpre]
    have hlen : (pre.data ++ ('\u001b' :: '[' :: '0' :: 'm' :: post.data)).length -
        pre.data.length = post.data.length + 4 := by
      simp [List.length_append]
    rw [hlen]
    have hstep : stripAnsiList (post.data.length + 4)
        ('\u001b' :: '[' :: '0' :: 'm' :: post.data) =
        stripAnsiList (post.data.length + 3) post.data := by
      show stripAnsiList (post.data.length + 3 + 1) _ = _
      simp [stripAnsiList, matchEscape_sgr_reset]
    rw [hstep, stripAnsiList_escFree post.data _ hpost, ← String.data_append]

/-- C6 witness: a plain message passes through unchanged, and a
message with an embedded color reset keeps exactly its surrounding
text. -/
theorem strip_ansi_sanitization_witness :
    stripAnsi "hello" = "hello" ∧ stripAnsi "red\u001b[0m!" = "red!" :=
  ⟨strip_ansi_sanitization.1 "hello" (by decide),
    strip_ansi_sanitization.2 "red" "!" (by decide) (by decide)⟩

end PluginLog
